import Mathlib

/-! Verification of the qwen-asr collaborators (benchmark driver
`examples/bench/bench.c` and HTTP server `examples/server/server.cpp`) against
the engine interface they consume. The core engine (`qwen_asr.c` and friends)
is not part of the sources at hand, so its API surface
(`qwen_transcribe_audio`, `qwen_set_force_language`, `qwen_set_prompt`, the
verbosity flag) is modelled from the specification; the bench and server logic
is translated from the source. -/

namespace QwenASR

/-- The mutable fields of `qwen_ctx_t` visible to the collaborators (spec §3
"Context"): force-language and prompt settings, the KV-cache counter and the
perf counters.  Milliseconds are embedded as rationals. -/
structure Ctx where
  forceLanguage  : Option String
  prompt         : Option String
  kvCacheLen     : Nat
  perfTotalMs    : ℚ
  perfEncodeMs   : ℚ
  perfDecodeMs   : ℚ
  perfAudioMs    : ℚ
  perfTextTokens : Nat
deriving Repr, DecidableEq

/-- Wall-clock measurements taken by one transcribe call (environment input:
the clock is not part of the deterministic pipeline). -/
structure Timing where
  totalMs  : ℚ
  encodeMs : ℚ
  decodeMs : ℚ
deriving Repr, DecidableEq

/-- Modelled from the spec: the core engine missing from the sources
(`qwen_asr.c`).  `supported` is the language list exposed by
`qwen_supported_languages_csv`; `decode` is the deterministic
mel → encoder → prefill → greedy-generation pipeline mapping the samples and
the context's force-language and prompt settings to the generated token
sequence (`none` models a runtime error, which the spec says yields a null
result); `detok` is detokenization to UTF-8 text; `textTokens` counts the
generated non-special tokens; `kvFinal` is the KV-cache length after
prefill plus generation. -/
structure Model where
  supported  : List String
  decode     : List ℚ → Option String → Option String → Option (List Nat)
  detok      : List Nat → String
  textTokens : List Nat → Nat
  kvFinal    : List Nat → Nat

/-- Modelled from the spec: `qwen_set_force_language(ctx, lang_or_null)` returns
0 (ok) when the language is null or supported, storing it; otherwise it returns
a nonzero UnsupportedLanguage error and leaves the context unchanged. -/
def qwen_set_force_language (m : Model) (ctx : Ctx) (lang : Option String) :
    ℤ × Ctx :=
  match lang with
  | none => (0, { ctx with forceLanguage := none })
  | some l =>
      if l ∈ m.supported then (0, { ctx with forceLanguage := some l })
      else (1, ctx)

/-- Modelled from the spec: `qwen_set_prompt(ctx, text_or_null)` stores the
prompt setting on the context. -/
def qwen_set_prompt (ctx : Ctx) (p : Option String) : Ctx :=
  { ctx with prompt := p }

/-- The token sequence a transcribe call generates: per the spec (§4.7 and
"Determinism"), a function of the samples and the context's force-language and
prompt settings only — the call resets `kv_cache_len` internally, so the KV
counter on entry does not influence the output. -/
def transcribeTokens (m : Model) (ctx : Ctx) (samples : List ℚ) :
    Option (List Nat) :=
  m.decode samples ctx.forceLanguage ctx.prompt

/-- Modelled from the spec (§4.7): `qwen_transcribe_audio` resets the perf
counters, runs the pipeline, populates the counters as stages complete, sets
`text_tokens`, `total_ms` and `audio_ms`, and returns the text (null on a
runtime error, with the KV cache treated as invalid and reset). -/
def qwen_transcribe_audio (m : Model) (t : Timing) (ctx : Ctx)
    (samples : List ℚ) : Option String × Ctx :=
  match transcribeTokens m ctx samples with
  | none =>
      (none, { ctx with kvCacheLen := 0, perfTotalMs := 0, perfEncodeMs := 0,
                        perfDecodeMs := 0, perfAudioMs := 0, perfTextTokens := 0 })
  | some toks =>
      (some (m.detok toks),
       { ctx with
         kvCacheLen     := m.kvFinal toks,
         perfTotalMs    := t.totalMs,
         perfEncodeMs   := t.encodeMs,
         perfDecodeMs   := t.decodeMs,
         perfAudioMs    := (samples.length : ℚ) * 1000 / 16000,
         perfTextTokens := m.textTokens toks })

/-- One run of `bench_full`'s measured loop (bench.c lines 87–97): set
`ctx->kv_cache_len = 0`, then call `qwen_transcribe_audio`. -/
def benchRun (m : Model) (t : Timing) (ctx : Ctx) (samples : List ℚ) :
    Option String × Ctx :=
  qwen_transcribe_audio m t { ctx with kvCacheLen := 0 } samples

/-- The `stats` helper of bench.c (lines 55–66): `mn` and `mx` start at
`arr[0]` and the loop folds min/max/sum over all elements; the mean is
`sum / n`.  Returned as `(out_min, out_mean, out_max)`. -/
def stats (arr : List ℚ) : ℚ × ℚ × ℚ :=
  let a0 := arr.headD 0
  (arr.foldl min a0, arr.foldl (· + ·) 0 / (arr.length : ℚ), arr.foldl max a0)

/-- One measured iteration of bench_full (bench.c lines 88–97): reset the KV
cache, transcribe, and record the wall-clock total together with the context's
perf counters (`encode_ms[i]`, `decode_ms[i]`, `n_tokens[i]`). -/
def benchMeasuredRun (m : Model) (t : Timing) (wall : ℚ) (ctx : Ctx)
    (samples : List ℚ) : (ℚ × ℚ × ℚ × Nat) × Ctx :=
  let r := qwen_transcribe_audio m t { ctx with kvCacheLen := 0 } samples
  ((wall, r.2.perfEncodeMs, r.2.perfDecodeMs, r.2.perfTextTokens), r.2)

/-- bench.c main (line 267): for synthetic silence of `audioSec` seconds the
audio duration handed to bench_full is `audio_sec * 1000.0` milliseconds. -/
def bench_audio_ms_synthetic (audioSec : ℕ) : ℚ := (audioSec : ℚ) * 1000

/-- Every real-time factor bench_full reports (lines 103 and 118–119) is a
total divided by the audio duration in milliseconds. -/
def bench_rt_factor (totalMs audioMs : ℚ) : ℚ := totalMs / audioMs

/-- The rt_factor summary row of bench_full (lines 118–119): the min, mean and
max of the measured totals, each divided by audio_ms. -/
def bench_rt_row (totals : List ℚ) (audioMs : ℚ) : ℚ × ℚ × ℚ :=
  (bench_rt_factor (stats totals).1 audioMs,
   bench_rt_factor (stats totals).2.1 audioMs,
   bench_rt_factor (stats totals).2.2 audioMs)

/-- The server's convention for optional strings: an empty string stands for a
NULL pointer (server.cpp passes `nullptr` for empty language and prompt). -/
def optOfString (s : String) : Option String :=
  if s = "" then none else some s

/-- The restore_defaults tail of the /inference handler (server.cpp lines
556–560): re-apply the server-level default language and prompt before
returning, regardless of which exit path was taken. -/
def restore_defaults (m : Model) (defLang defPrompt : String) (ctx : Ctx) :
    Ctx :=
  qwen_set_prompt (qwen_set_force_language m ctx (optOfString defLang)).2
    (optOfString defPrompt)

/-- The fields of a POST /inference request the handler looks at: the optional
`language`, `prompt` and `response_format` form fields and whether a `file`
field is present. -/
structure Request where
  language       : Option String
  prompt         : Option String
  responseFormat : Option String
  hasFile        : Bool
deriving Repr, DecidableEq

/-- Environment outcomes of the audio-acquisition steps: whether the ffmpeg
conversion succeeds (consulted only with `--convert`) and the samples produced
by `qwen_load_wav` / `qwen_parse_wav_buffer` (`none` = parse failure). -/
structure AudioEnv where
  convertOk : Bool
  wavResult : Option (List ℚ)
deriving Repr, DecidableEq

/-- The JSON object the /inference handler builds on success (server.cpp lines
543–551). -/
structure InferenceJson where
  text      : String
  total_ms  : ℚ
  encode_ms : ℚ
  decode_ms : ℚ
  tokens    : Nat
  tok_s     : ℚ
  rt_factor : ℚ
deriving Repr, DecidableEq

/-- The body of an /inference response: a JSON error object, the success JSON
object, or plain transcription text. -/
inductive Body where
  | errJson (msg : String)
  | okJson (j : InferenceJson)
  | okText (s : String)
deriving Repr, DecidableEq

/-- An HTTP response: httplib's default status is 200 unless the handler sets
it (the only assignment is `res.status = 500` on a null transcription). -/
structure Response where
  status : Nat
  body   : Body
deriving Repr, DecidableEq

/-- What one /inference handler invocation produces: the response, the context
it leaves behind for the next request, and whether every samples buffer
allocated during the request was released before returning. -/
structure HandlerResult where
  response     : Response
  ctx          : Ctx
  samplesFreed : Bool
deriving Repr, DecidableEq

/-- server.cpp lines 539–540: tokens per second, 0 when total time or token
count is not positive. -/
def server_tok_s (c : Ctx) : ℚ :=
  if 0 < c.perfTotalMs ∧ 0 < c.perfTextTokens then
    (c.perfTextTokens : ℚ) / (c.perfTotalMs / 1000)
  else 0

/-- server.cpp lines 541–542: the real-time factor `perf_total_ms /
perf_audio_ms`, 0 when no audio duration was recorded. -/
def server_rt_factor (c : Ctx) : ℚ :=
  if 0 < c.perfAudioMs then c.perfTotalMs / c.perfAudioMs else 0

/-- The context after the handler applied the per-request language and prompt
overrides (server.cpp lines 470–476), on the path where the language was
accepted. -/
def ctxAfterOverrides (m : Model) (defLang defPrompt : String) (req : Request)
    (ctx : Ctx) : Ctx :=
  qwen_set_prompt
    (qwen_set_force_language m ctx (optOfString (req.language.getD defLang))).2
    (optOfString (req.prompt.getD defPrompt))

/-- The POST /inference handler (server.cpp lines 456–561), translated branch
by branch: resolve per-request overrides with server defaults as fallback,
validate the language, set the prompt, acquire the samples (directly or via
ffmpeg), transcribe, and build the response; every exit path runs the
restore_defaults tail. -/
def inferenceHandler (m : Model) (t : Timing) (defLang defPrompt : String)
    (convertMode : Bool) (env : AudioEnv) (req : Request) (ctx : Ctx) :
    HandlerResult :=
  let reqLanguage := req.language.getD defLang
  let reqPrompt   := req.prompt.getD defPrompt
  let reqFormat   := req.responseFormat.getD "json"
  let langSet := qwen_set_force_language m ctx (optOfString reqLanguage)
  if langSet.1 ≠ 0 then
    { response := ⟨200, .errJson ("unsupported language: " ++ reqLanguage)⟩,
      ctx := restore_defaults m defLang defPrompt ctx,
      samplesFreed := true }
  else
    let ctx2 := qwen_set_prompt langSet.2 (optOfString reqPrompt)
    if req.hasFile = false then
      { response := ⟨200, .errJson "no 'file' field in the request"⟩,
        ctx := restore_defaults m defLang defPrompt ctx2,
        samplesFreed := true }
    else if convertMode = true ∧ env.convertOk = false then
      { response := ⟨200, .errJson "FFmpeg conversion failed."⟩,
        ctx := restore_defaults m defLang defPrompt ctx2,
        samplesFreed := true }
    else
      match env.wavResult with
      | none =>
          { response := ⟨200, .errJson "failed to read audio data"⟩,
            ctx := restore_defaults m defLang defPrompt ctx2,
            samplesFreed := true }
      | some samples =>
          let tr := qwen_transcribe_audio m t ctx2 samples
          match tr.1 with
          | none =>
              { response := ⟨500, .errJson "failed to process audio"⟩,
                ctx := restore_defaults m defLang defPrompt tr.2,
                samplesFreed := true }
          | some text =>
              if reqFormat = "text" then
                { response := ⟨200, .okText text⟩,
                  ctx := restore_defaults m defLang defPrompt tr.2,
                  samplesFreed := true }
              else
                { response :=
                    ⟨200, .okJson ⟨text, tr.2.perfTotalMs, tr.2.perfEncodeMs,
                                   tr.2.perfDecodeMs, tr.2.perfTextTokens,
                                   server_tok_s tr.2, server_rt_factor tr.2⟩⟩,
                  ctx := restore_defaults m defLang defPrompt tr.2,
                  samplesFreed := true }

/-- The startup `--language` validation of server main (server.cpp lines
397–404): an empty default is skipped; otherwise a nonzero return from
`qwen_set_force_language` makes main free the context and return 1 (`none`
here); on success the context carries the default language. -/
def serverStartupLangCheck (m : Model) (defLang : String) (ctx : Ctx) :
    Option Ctx :=
  if defLang = "" then some ctx
  else
    let r := qwen_set_force_language m ctx (some defLang)
    if r.1 ≠ 0 then none else some r.2

/-- Phase of one request-handler thread: before it has taken `qwen_mutex`,
inside the lock_guard-protected handler body (where all its qwen_* calls
happen), or finished. -/
inductive HPhase where
  | outside
  | critical
  | done
deriving Repr, DecidableEq

/-- Global state of the server process for the mutual-exclusion argument: the
phase of each handler thread; thread `t` runs one POST /inference or POST
/load handler invocation. -/
def LockState := ℕ → HPhase

/-- All handler threads are still before their lock_guard. -/
def lockInit : LockState := fun _ => HPhase.outside

/-- Interleaving semantics of the handlers (server.cpp lines 458 and 566): a
thread enters its handler body only by acquiring `qwen_mutex` while no other
thread holds it (std::mutex exclusivity), and leaves the body when the
lock_guard releases the mutex at the end of the handler. -/
inductive lockStep : LockState → LockState → Prop where
  | acquire (s : LockState) (t : ℕ) (hwait : s t = HPhase.outside)
      (hfree : ∀ u, s u ≠ HPhase.critical) :
      lockStep s (Function.update s t HPhase.critical)
  | release (s : LockState) (t : ℕ) (hheld : s t = HPhase.critical) :
      lockStep s (Function.update s t HPhase.done)

/-- Events that touch the process-wide `qwen_verbose` flag or are guarded by
it: assignments to the flag, `qwen_load`, and inference calls. -/
inductive ProcEvent where
  | setVerbose (v : ℤ)
  | loadModel
  | inference
deriving Repr, DecidableEq

/-- Effect of one event on the `qwen_verbose` flag: only assignments change
it. -/
def applyEvent (v : ℤ) : ProcEvent → ℤ
  | .setVerbose w => w
  | _ => v

/-- The value of `qwen_verbose` after a trace of events, starting from
`init`. -/
def verboseAfter (init : ℤ) (tr : List ProcEvent) : ℤ :=
  tr.foldl applyEvent init

/-- Modelled from the spec: per-call timing lines are written to standard
error iff the process-wide verbosity flag is nonzero when the call runs. -/
def timingLineEmitted (v : ℤ) : Bool := v != 0

/-- The event trace of bench main and bench_full (bench.c lines 232, 239 and
81–104): load the model, set `qwen_verbose = 0`, run the warm-up, then the
measured runs. -/
def benchTrace (nRuns : ℕ) : List ProcEvent :=
  ProcEvent.loadModel :: ProcEvent.setVerbose 0 :: ProcEvent.inference ::
    List.replicate nRuns ProcEvent.inference

/-- The event trace of server main (server.cpp lines 378 and 389) followed by
the requests it serves: set `qwen_verbose = 1`, load the model, then handle
inference requests. -/
def serverTrace (nReq : ℕ) : List ProcEvent :=
  ProcEvent.setVerbose 1 :: ProcEvent.loadModel ::
    List.replicate nReq ProcEvent.inference

/-- Outcome of the POST /load handler: a bad request keeps the old context, a
failed load terminates the process, a successful load yields the new
context. -/
inductive LoadOutcome where
  | badRequest
  | exited (code : ℤ)
  | ready (c : Ctx)
deriving Repr, DecidableEq

/-- Result of the POST /load handler: its outcome, whether the old context was
freed, and whether the server ends in the READY state. -/
structure LoadResult where
  outcome     : LoadOutcome
  oldCtxFreed : Bool
  stateReady  : Bool
deriving Repr, DecidableEq

/-- The POST /load handler (server.cpp lines 564–596): with no `model` field it
returns an error body and goes back to READY keeping the old context;
otherwise it frees the old context first, calls `qwen_load`, exits the process
with status 1 when the load fails, and on success re-applies the server-level
defaults to the new context and returns to READY. -/
def loadHandler (m : Model) (defLang defPrompt : String)
    (modelField : Option String) (loadResult : Option Ctx) : LoadResult :=
  match modelField with
  | none => ⟨LoadOutcome.badRequest, false, true⟩
  | some _ =>
      match loadResult with
      | none => ⟨LoadOutcome.exited 1, true, false⟩
      | some c =>
          let c1 := if defLang = "" then c
                    else (qwen_set_force_language m c (some defLang)).2
          let c2 := if defPrompt = "" then c1
                    else qwen_set_prompt c1 (some defPrompt)
          ⟨LoadOutcome.ready c2, true, true⟩

/-- A concrete engine instance used to evaluate the definitions on closed
inputs: English and French are supported; greedy decoding emits two tokens,
except that a forced "French" decode hits a runtime error and yields null. -/
def mTest : Model where
  supported := ["English", "French"]
  decode := fun _ lang _ => if lang = some "French" then none else some [7, 8]
  detok := fun toks => String.intercalate " " (toks.map toString)
  textTokens := fun toks => toks.length
  kvFinal := fun toks => 3 + toks.length

/-- A concrete context in its freshly loaded state. -/
def ctxTest : Ctx := ⟨none, none, 0, 0, 0, 0, 0, 0⟩

/-- Concrete wall-clock measurements for one call. -/
def tTest : Timing := ⟨100, 60, 40⟩

-- helper lemmas

theorem foldl_min_le_init (l : List ℚ) (b : ℚ) : l.foldl min b ≤ b := by
  induction l generalizing b with
  | nil => simp
  | cons x xs ih => exact le_trans (ih (min b x)) (min_le_left b x)

theorem foldl_min_le_mem (l : List ℚ) (b : ℚ) (x : ℚ) (hx : x ∈ l) :
    l.foldl min b ≤ x := by
  induction l generalizing b with
  | nil => cases hx
  | cons y ys ih =>
      rcases List.mem_cons.1 hx with h | h
      · subst h
        exact le_trans (foldl_min_le_init ys (min b x)) (min_le_right b x)
      · exact ih (min b y) h

theorem foldl_min_mem_or (l : List ℚ) (b : ℚ) :
    l.foldl min b = b ∨ l.foldl min b ∈ l := by
  induction l generalizing b with
  | nil => exact Or.inl rfl
  | cons y ys ih =>
      rcases ih (min b y) with h | h
      · simp only [List.foldl_cons] at *
        rcases le_total b y with hby | hyb
        · rw [h, min_eq_left hby]; exact Or.inl rfl
        · rw [h, min_eq_right hyb]; exact Or.inr (List.mem_cons_self y ys)
      · exact Or.inr (List.mem_cons_of_mem y h)

theorem foldl_max_init_le (l : List ℚ) (b : ℚ) : b ≤ l.foldl max b := by
  induction l generalizing b with
  | nil => simp
  | cons x xs ih => exact le_trans (le_max_left b x) (ih (max b x))

theorem foldl_max_mem_le (l : List ℚ) (b : ℚ) (x : ℚ) (hx : x ∈ l) :
    x ≤ l.foldl max b := by
  induction l generalizing b with
  | nil => cases hx
  | cons y ys ih =>
      rcases List.mem_cons.1 hx with h | h
      · subst h
        exact le_trans (le_max_right b x) (foldl_max_init_le ys (max b x))
      · exact ih (max b y) h

theorem foldl_max_mem_or (l : List ℚ) (b : ℚ) :
    l.foldl max b = b ∨ l.foldl max b ∈ l := by
  induction l generalizing b with
  | nil => exact Or.inl rfl
  | cons y ys ih =>
      rcases ih (max b y) with h | h
      · simp only [List.foldl_cons] at *
        rcases le_total b y with hby | hyb
        · rw [h, max_eq_right hby]; exact Or.inr (List.mem_cons_self y ys)
        · rw [h, max_eq_left hyb]; exact Or.inl rfl
      · exact Or.inr (List.mem_cons_of_mem y h)

theorem foldl_add_eq (l : List ℚ) (c : ℚ) : l.foldl (· + ·) c = c + l.sum := by
  induction l generalizing c with
  | nil => simp
  | cons x xs ih => simp [ih, add_assoc]

theorem length_mul_le_sum (l : List ℚ) (b : ℚ) (h : ∀ x ∈ l, b ≤ x) :
    (l.length : ℚ) * b ≤ l.sum := by
  induction l with
  | nil => simp
  | cons x xs ih =>
      have hx : b ≤ x := h x (List.mem_cons_self x xs)
      have hxs : (xs.length : ℚ) * b ≤ xs.sum :=
        ih fun y hy => h y (List.mem_cons_of_mem x hy)
      rw [List.length_cons]
      push_cast
      calc ((xs.length : ℚ) + 1) * b = b + (xs.length : ℚ) * b := by ring
        _ ≤ x + xs.sum := add_le_add hx hxs
        _ = (x :: xs).sum := by simp

theorem sum_le_length_mul (l : List ℚ) (b : ℚ) (h : ∀ x ∈ l, x ≤ b) :
    l.sum ≤ (l.length : ℚ) * b := by
  induction l with
  | nil => simp
  | cons x xs ih =>
      have hx : x ≤ b := h x (List.mem_cons_self x xs)
      have hxs : xs.sum ≤ (xs.length : ℚ) * b :=
        ih fun y hy => h y (List.mem_cons_of_mem x hy)
      rw [List.length_cons]
      push_cast
      calc (x :: xs).sum = x + xs.sum := by simp
        _ ≤ b + (xs.length : ℚ) * b := add_le_add hx hxs
        _ = ((xs.length : ℚ) + 1) * b := by ring

-- claim theorems

/-- C1: transcription is deterministic across two benchmark runs: with
`kv_cache_len` set to 0 before each call (as `bench_full` does), a second
`qwen_transcribe_audio` on the same samples — starting from the context state
left by the first call, under any wall-clock timings — produces the same token
sequence and the same output text as the first call. -/
theorem qwen_c1 (m : Model) (t₁ t₂ : Timing) (ctx : Ctx) (samples : List ℚ) :
    transcribeTokens m { (benchRun m t₁ ctx samples).2 with kvCacheLen := 0 }
        samples
      = transcribeTokens m { ctx with kvCacheLen := 0 } samples
    ∧ (benchRun m t₂ (benchRun m t₁ ctx samples).2 samples).1
      = (benchRun m t₁ ctx samples).1 := by
  unfold benchRun qwen_transcribe_audio transcribeTokens
  cases h : m.decode samples ctx.forceLanguage ctx.prompt <;> simp [h]

/-- C3: `qwen_set_force_language` returns 0 exactly when the language is null
or supported, returns nonzero otherwise leaving the context unchanged, and the
server's startup `--language` validation (server.cpp lines 397–404) rejects a
default language exactly when it is nonempty and unsupported. -/
theorem qwen_c3 (m : Model) (ctx : Ctx) (lang : Option String)
    (defLang : String) :
    ((qwen_set_force_language m ctx lang).1 = 0 ↔
      lang = none ∨ ∃ l, lang = some l ∧ l ∈ m.supported)
    ∧ ((qwen_set_force_language m ctx lang).1 ≠ 0 →
        (qwen_set_force_language m ctx lang).2 = ctx)
    ∧ (serverStartupLangCheck m defLang ctx = none ↔
        defLang ≠ "" ∧ defLang ∉ m.supported) := by
  refine ⟨?_, ?_, ?_⟩
  · unfold qwen_set_force_language
    cases lang with
    | none => simp
    | some l => by_cases h : l ∈ m.supported <;> simp [h]
  · unfold qwen_set_force_language
    cases lang with
    | none => simp
    | some l => by_cases h : l ∈ m.supported <;> simp [h]
  · unfold serverStartupLangCheck qwen_set_force_language
    by_cases he : defLang = ""
    · simp [he]
    · by_cases hs : defLang ∈ m.supported <;> simp [he, hs]

/-- C3 witness: on the concrete model (English and French supported), setting
"Klingon" returns nonzero and leaves the context unchanged, and a startup
default of "Klingon" makes the server reject. -/
theorem qwen_c3_witness :
    (qwen_set_force_language mTest ctxTest (some "Klingon")).1 ≠ 0
    ∧ (qwen_set_force_language mTest ctxTest (some "Klingon")).2 = ctxTest
    ∧ serverStartupLangCheck mTest "Klingon" ctxTest = none := by
  have h := qwen_c3 mTest ctxTest (some "Klingon") "Klingon"
  have hne : (qwen_set_force_language mTest ctxTest (some "Klingon")).1 ≠ 0 := by
    intro h0
    rcases h.1.mp h0 with h1 | ⟨l, hl, hmem⟩
    · cases h1
    · cases hl
      revert hmem
      decide
  refine ⟨hne, h.2.1 hne, ?_⟩
  exact h.2.2.mpr (by constructor <;> decide)

/-- C8: for a nonempty array, the bench `stats` helper returns the minimum
element, the maximum element and the arithmetic mean `sum / n`; consequently
`out_min ≤ out_mean ≤ out_max`. -/
theorem qwen_c8 (arr : List ℚ) (h : arr ≠ []) :
    ((stats arr).1 ∈ arr ∧ ∀ x ∈ arr, (stats arr).1 ≤ x)
    ∧ ((stats arr).2.2 ∈ arr ∧ ∀ x ∈ arr, x ≤ (stats arr).2.2)
    ∧ (stats arr).2.1 = arr.sum / (arr.length : ℚ)
    ∧ (stats arr).1 ≤ (stats arr).2.1 ∧ (stats arr).2.1 ≤ (stats arr).2.2 := by
  obtain ⟨a, rest, rfl⟩ := List.exists_cons_of_ne_nil h
  have hhead : (a :: rest).headD 0 = a := rfl
  have hmin_mem : (stats (a :: rest)).1 ∈ a :: rest := by
    unfold stats
    simp only [hhead]
    rcases foldl_min_mem_or (a :: rest) a with h1 | h1
    · rw [h1]; exact List.mem_cons_self a rest
    · exact h1
  have hmin_le : ∀ x ∈ a :: rest, (stats (a :: rest)).1 ≤ x := by
    intro x hx
    unfold stats
    simp only [hhead]
    exact foldl_min_le_mem (a :: rest) a x hx
  have hmax_mem : (stats (a :: rest)).2.2 ∈ a :: rest := by
    unfold stats
    simp only [hhead]
    rcases foldl_max_mem_or (a :: rest) a with h1 | h1
    · rw [h1]; exact List.mem_cons_self a rest
    · exact h1
  have hmax_ge : ∀ x ∈ a :: rest, x ≤ (stats (a :: rest)).2.2 := by
    intro x hx
    unfold stats
    simp only [hhead]
    exact foldl_max_mem_le (a :: rest) a x hx
  have hmean : (stats (a :: rest)).2.1 = (a :: rest).sum / ((a :: rest).length : ℚ) := by
    unfold stats
    simp only []
    rw [foldl_add_eq, zero_add]
  have hlenpos : (0 : ℚ) < ((a :: rest).length : ℚ) := by
    have h1 : 0 < (a :: rest).length := by simp
    exact_mod_cast h1
  have hminmean : (stats (a :: rest)).1 ≤ (stats (a :: rest)).2.1 := by
    rw [hmean, le_div_iff₀ hlenpos]
    calc (stats (a :: rest)).1 * ((a :: rest).length : ℚ)
        = ((a :: rest).length : ℚ) * (stats (a :: rest)).1 := by ring
      _ ≤ (a :: rest).sum := length_mul_le_sum _ _ hmin_le
  have hmeanmax : (stats (a :: rest)).2.1 ≤ (stats (a :: rest)).2.2 := by
    rw [hmean, div_le_iff₀ hlenpos]
    calc (a :: rest).sum ≤ ((a :: rest).length : ℚ) * (stats (a :: rest)).2.2 :=
        sum_le_length_mul _ _ hmax_ge
      _ = (stats (a :: rest)).2.2 * ((a :: rest).length : ℚ) := by ring
  exact ⟨⟨hmin_mem, hmin_le⟩, ⟨hmax_mem, hmax_ge⟩, hmean, hminmean, hmeanmax⟩

theorem restore_defaults_fields (m : Model) (defLang defPrompt : String)
    (ctx : Ctx) (hdef : defLang = "" ∨ defLang ∈ m.supported) :
    (restore_defaults m defLang defPrompt ctx).forceLanguage
      = optOfString defLang
    ∧ (restore_defaults m defLang defPrompt ctx).prompt
      = optOfString defPrompt := by
  unfold restore_defaults qwen_set_prompt qwen_set_force_language optOfString
  by_cases he : defLang = ""
  · simp [he]
  · rcases hdef with h | h
    · exact absurd h he
    · simp [he, h]

theorem handler_ctx_restored (m : Model) (t : Timing)
    (defLang defPrompt : String) (conv : Bool) (env : AudioEnv) (req : Request)
    (ctx : Ctx) :
    ∃ c, (inferenceHandler m t defLang defPrompt conv env req ctx).ctx
      = restore_defaults m defLang defPrompt c := by
  unfold inferenceHandler
  dsimp only
  split
  · exact ⟨_, rfl⟩
  · split
    · exact ⟨_, rfl⟩
    · split
      · exact ⟨_, rfl⟩
      · split
        · exact ⟨_, rfl⟩
        · split
          · exact ⟨_, rfl⟩
          · split
            · exact ⟨_, rfl⟩
            · exact ⟨_, rfl⟩

theorem handler_success_shape (m : Model) (t : Timing)
    (defLang defPrompt : String) (conv : Bool) (env : AudioEnv) (req : Request)
    (ctx : Ctx) (samples : List ℚ) (text : String)
    (hlang : (qwen_set_force_language m ctx
        (optOfString (req.language.getD defLang))).1 = 0)
    (hfile : req.hasFile = true)
    (hconv : conv = false ∨ env.convertOk = true)
    (hwav : env.wavResult = some samples)
    (hfmt : req.responseFormat.getD "json" ≠ "text")
    (htr : (qwen_transcribe_audio m t
        (ctxAfterOverrides m defLang defPrompt req ctx) samples).1
      = some text) :
    (inferenceHandler m t defLang defPrompt conv env req ctx).response
      = ⟨200, Body.okJson
          ⟨text,
           (qwen_transcribe_audio m t
             (ctxAfterOverrides m defLang defPrompt req ctx) samples).2.perfTotalMs,
           (qwen_transcribe_audio m t
             (ctxAfterOverrides m defLang defPrompt req ctx) samples).2.perfEncodeMs,
           (qwen_transcribe_audio m t
             (ctxAfterOverrides m defLang defPrompt req ctx) samples).2.perfDecodeMs,
           (qwen_transcribe_audio m t
             (ctxAfterOverrides m defLang defPrompt req ctx) samples).2.perfTextTokens,
           server_tok_s (qwen_transcribe_audio m t
             (ctxAfterOverrides m defLang defPrompt req ctx) samples).2,
           server_rt_factor (qwen_transcribe_audio m t
             (ctxAfterOverrides m defLang defPrompt req ctx) samples).2⟩⟩ := by
  have hcv : ¬ (conv = true ∧ env.convertOk = false) := by
    rcases hconv with h | h <;> simp [h]
  unfold inferenceHandler
  rw [if_neg (by simp [hlang]), if_neg (by simp [hfile]), if_neg hcv]
  have hctx2 : qwen_set_prompt
      (qwen_set_force_language m ctx
        (optOfString (req.language.getD defLang))).2
      (optOfString (req.prompt.getD defPrompt))
    = ctxAfterOverrides m defLang defPrompt req ctx := rfl
  rw [hctx2, hwav]
  simp only [htr]
  rw [if_neg hfmt]

theorem foldl_applyEvent_take_replicate (v : ℤ) (k n : ℕ) :
    ((List.replicate n ProcEvent.inference).take k).foldl applyEvent v = v := by
  induction n generalizing k v with
  | zero => simp
  | succ n ih =>
      cases k with
      | zero => simp
      | succ k =>
          rw [List.replicate_succ, List.take_succ_cons, List.foldl_cons]
          exact ih (applyEvent v ProcEvent.inference) k

/-- C8 witness: `stats [3, 1, 2]` returns min 1, mean 2, max 3 and the
theorem's conclusions hold there. -/
theorem qwen_c8_witness :
    (([3, 1, 2] : List ℚ) ≠ []
      ∧ (stats [3, 1, 2]).1 ∈ ([3, 1, 2] : List ℚ)
      ∧ (stats [3, 1, 2]).2.1 = ([3, 1, 2] : List ℚ).sum / (([3, 1, 2] : List ℚ).length : ℚ))
    ∧ (stats [3, 1, 2]).1 ≤ (stats ([3, 1, 2] : List ℚ)).2.1 := by
  have h := qwen_c8 [3, 1, 2] (by decide)
  exact ⟨⟨by decide, h.1.1, h.2.2.1⟩, h.2.2.2.1⟩

/-- C2: the server serializes every inference behind the single `qwen_mutex`:
in any state reachable from the initial one under the acquire/release
semantics of the handlers' lock_guard, at most one handler thread is inside
its handler body, so no two qwen_* calls from different requests overlap. -/
theorem qwen_c2 (s : LockState)
    (hreach : Relation.ReflTransGen lockStep lockInit s) :
    ∀ t u, s t = HPhase.critical → s u = HPhase.critical → t = u := by
  induction hreach with
  | refl =>
      intro t u ht _
      simp [lockInit] at ht
  | tail _ hstep ih =>
      intro t u ht hu
      cases hstep with
      | acquire t0 hwait hfree =>
          by_cases het : t = t0
          · by_cases heu : u = t0
            · rw [het, heu]
            · rw [Function.update_noteq heu] at hu
              exact absurd hu (hfree u)
          · rw [Function.update_noteq het] at ht
            exact absurd ht (hfree t)
      | release t0 hheld =>
          by_cases het : t = t0
          · rw [het, Function.update_same] at ht
            simp at ht
          · by_cases heu : u = t0
            · rw [heu, Function.update_same] at hu
              simp at hu
            · rw [Function.update_noteq het] at ht
              rw [Function.update_noteq heu] at hu
              exact ih t u ht hu

/-- C2 witness: the state where thread 0 alone holds the mutex is reachable,
and the theorem applied there identifies the two critical threads. -/
theorem qwen_c2_witness :
    Relation.ReflTransGen lockStep lockInit
      (Function.update lockInit 0 HPhase.critical)
    ∧ (0 : ℕ) = 0 := by
  have hstep : lockStep lockInit (Function.update lockInit 0 HPhase.critical) :=
    lockStep.acquire lockInit 0 rfl (fun u h => by simp [lockInit] at h)
  have hreach := Relation.ReflTransGen.single hstep
  refine ⟨hreach, ?_⟩
  exact qwen_c2 _ hreach 0 0 (by simp) (by simp)

/-- C4: on a successful /inference request with JSON format, the response body
is the JSON object whose total_ms, encode_ms, decode_ms and tokens fields are
the context's perf counters as read after the transcribe call; and every
measured bench_full run records exactly the context's perf counters read after
its own call. -/
theorem qwen_c4 (m : Model) (t : Timing) (defLang defPrompt : String)
    (conv : Bool) (env : AudioEnv) (req : Request) (ctx : Ctx)
    (samples : List ℚ) (text : String)
    (hlang : (qwen_set_force_language m ctx
        (optOfString (req.language.getD defLang))).1 = 0)
    (hfile : req.hasFile = true)
    (hconv : conv = false ∨ env.convertOk = true)
    (hwav : env.wavResult = some samples)
    (hfmt : req.responseFormat.getD "json" ≠ "text")
    (htr : (qwen_transcribe_audio m t
        (ctxAfterOverrides m defLang defPrompt req ctx) samples).1
      = some text) :
    (inferenceHandler m t defLang defPrompt conv env req ctx).response.body
      = Body.okJson
          ⟨text,
           (qwen_transcribe_audio m t
             (ctxAfterOverrides m defLang defPrompt req ctx) samples).2.perfTotalMs,
           (qwen_transcribe_audio m t
             (ctxAfterOverrides m defLang defPrompt req ctx) samples).2.perfEncodeMs,
           (qwen_transcribe_audio m t
             (ctxAfterOverrides m defLang defPrompt req ctx) samples).2.perfDecodeMs,
           (qwen_transcribe_audio m t
             (ctxAfterOverrides m defLang defPrompt req ctx) samples).2.perfTextTokens,
           server_tok_s (qwen_transcribe_audio m t
             (ctxAfterOverrides m defLang defPrompt req ctx) samples).2,
           server_rt_factor (qwen_transcribe_audio m t
             (ctxAfterOverrides m defLang defPrompt req ctx) samples).2⟩
    ∧ ∀ (wall : ℚ) (c : Ctx),
        (benchMeasuredRun m t wall c samples).1.2.1
          = (benchMeasuredRun m t wall c samples).2.perfEncodeMs
        ∧ (benchMeasuredRun m t wall c samples).1.2.2.1
          = (benchMeasuredRun m t wall c samples).2.perfDecodeMs
        ∧ (benchMeasuredRun m t wall c samples).1.2.2.2
          = (benchMeasuredRun m t wall c samples).2.perfTextTokens := by
  refine ⟨?_, fun wall c => ⟨rfl, rfl, rfl⟩⟩
  have h := handler_success_shape m t defLang defPrompt conv env req ctx
    samples text hlang hfile hconv hwav hfmt htr
  rw [h]

/-- C4 witness: the concrete request through the concrete engine yields the
JSON body carrying the post-call perf counters. -/
theorem qwen_c4_witness :
    (inferenceHandler mTest tTest "" "" false ⟨true, some [0, 0, 0]⟩
        ⟨none, none, none, true⟩ ctxTest).response.body
      = Body.okJson
          ⟨"7 8",
           (qwen_transcribe_audio mTest tTest
             (ctxAfterOverrides mTest "" "" ⟨none, none, none, true⟩ ctxTest)
             [0, 0, 0]).2.perfTotalMs,
           (qwen_transcribe_audio mTest tTest
             (ctxAfterOverrides mTest "" "" ⟨none, none, none, true⟩ ctxTest)
             [0, 0, 0]).2.perfEncodeMs,
           (qwen_transcribe_audio mTest tTest
             (ctxAfterOverrides mTest "" "" ⟨none, none, none, true⟩ ctxTest)
             [0, 0, 0]).2.perfDecodeMs,
           (qwen_transcribe_audio mTest tTest
             (ctxAfterOverrides mTest "" "" ⟨none, none, none, true⟩ ctxTest)
             [0, 0, 0]).2.perfTextTokens,
           server_tok_s (qwen_transcribe_audio mTest tTest
             (ctxAfterOverrides mTest "" "" ⟨none, none, none, true⟩ ctxTest)
             [0, 0, 0]).2,
           server_rt_factor (qwen_transcribe_audio mTest tTest
             (ctxAfterOverrides mTest "" "" ⟨none, none, none, true⟩ ctxTest)
             [0, 0, 0]).2⟩ :=
  (qwen_c4 mTest tTest "" "" false ⟨true, some [0, 0, 0]⟩
      ⟨none, none, none, true⟩ ctxTest [0, 0, 0] "7 8"
      (by decide) rfl (Or.inl rfl) rfl (by decide) (by decide)).1

/-- C5: every reported real-time factor is processing time divided by audio
duration: the bench figure for `a` seconds of synthetic audio is
`total_ms / (a * 1000)` (hence `total_ms / 5000` for 5 s), and the JSON
response's rt_factor is `perf_total_ms / perf_audio_ms` whenever
`perf_audio_ms > 0` after the call. -/
theorem qwen_c5 (a : ℕ) (totalMs : ℚ)
    (m : Model) (t : Timing) (defLang defPrompt : String) (conv : Bool)
    (env : AudioEnv) (req : Request) (ctx : Ctx) (samples : List ℚ)
    (text : String)
    (hlang : (qwen_set_force_language m ctx
        (optOfString (req.language.getD defLang))).1 = 0)
    (hfile : req.hasFile = true)
    (hconv : conv = false ∨ env.convertOk = true)
    (hwav : env.wavResult = some samples)
    (hfmt : req.responseFormat.getD "json" ≠ "text")
    (htr : (qwen_transcribe_audio m t
        (ctxAfterOverrides m defLang defPrompt req ctx) samples).1
      = some text)
    (haudio : 0 < (qwen_transcribe_audio m t
        (ctxAfterOverrides m defLang defPrompt req ctx) samples).2.perfAudioMs) :
    bench_rt_factor totalMs (bench_audio_ms_synthetic a)
      = totalMs / ((a : ℚ) * 1000)
    ∧ bench_rt_factor totalMs (bench_audio_ms_synthetic 5) = totalMs / 5000
    ∧ ∃ j, (inferenceHandler m t defLang defPrompt conv env req ctx).response.body
          = Body.okJson j
        ∧ j.rt_factor
          = (qwen_transcribe_audio m t
              (ctxAfterOverrides m defLang defPrompt req ctx) samples).2.perfTotalMs
            / (qwen_transcribe_audio m t
              (ctxAfterOverrides m defLang defPrompt req ctx) samples).2.perfAudioMs := by
  refine ⟨rfl, ?_, ?_⟩
  · norm_num [bench_rt_factor, bench_audio_ms_synthetic]
  · have h := handler_success_shape m t defLang defPrompt conv env req ctx
      samples text hlang hfile hconv hwav hfmt htr
    refine ⟨_, by rw [h], ?_⟩
    show server_rt_factor _ = _
    unfold server_rt_factor
    rw [if_pos haudio]

/-- C5 witness: the bench formula at 5 seconds and the concrete request's
rt_factor field. -/
theorem qwen_c5_witness :
    bench_rt_factor 100 (bench_audio_ms_synthetic 5) = 100 / 5000
    ∧ ∃ j, (inferenceHandler mTest tTest "" "" false ⟨true, some [0, 0, 0]⟩
          ⟨none, none, none, true⟩ ctxTest).response.body = Body.okJson j
        ∧ j.rt_factor
          = (qwen_transcribe_audio mTest tTest
              (ctxAfterOverrides mTest "" "" ⟨none, none, none, true⟩ ctxTest)
              [0, 0, 0]).2.perfTotalMs
            / (qwen_transcribe_audio mTest tTest
              (ctxAfterOverrides mTest "" "" ⟨none, none, none, true⟩ ctxTest)
              [0, 0, 0]).2.perfAudioMs := by
  have haudio : 0 < (qwen_transcribe_audio mTest tTest
      (ctxAfterOverrides mTest "" "" ⟨none, none, none, true⟩ ctxTest)
      [0, 0, 0]).2.perfAudioMs := by
    show (0 : ℚ) < (3 : ℚ) * 1000 / 16000
    norm_num
  have h := qwen_c5 5 100 mTest tTest "" "" false ⟨true, some [0, 0, 0]⟩
    ⟨none, none, none, true⟩ ctxTest [0, 0, 0] "7 8"
    (by decide) rfl (Or.inl rfl) rfl (by decide) (by decide) haudio
  exact ⟨h.2.1, h.2.2⟩

/-- C6: when the transcribe call returns null, the /inference handler responds
with status 500 and the "failed to process audio" JSON error, the samples
buffer has been freed, and the context survives with the server-level defaults
restored for the next request. -/
theorem qwen_c6 (m : Model) (t : Timing) (defLang defPrompt : String)
    (conv : Bool) (env : AudioEnv) (req : Request) (ctx : Ctx)
    (samples : List ℚ)
    (hdef : defLang = "" ∨ defLang ∈ m.supported)
    (hlang : (qwen_set_force_language m ctx
        (optOfString (req.language.getD defLang))).1 = 0)
    (hfile : req.hasFile = true)
    (hconv : conv = false ∨ env.convertOk = true)
    (hwav : env.wavResult = some samples)
    (htr : (qwen_transcribe_audio m t
        (ctxAfterOverrides m defLang defPrompt req ctx) samples).1 = none) :
    (inferenceHandler m t defLang defPrompt conv env req ctx).response.status
      = 500
    ∧ (inferenceHandler m t defLang defPrompt conv env req ctx).response.body
      = Body.errJson "failed to process audio"
    ∧ (inferenceHandler m t defLang defPrompt conv env req ctx).samplesFreed
      = true
    ∧ (inferenceHandler m t defLang defPrompt conv env req ctx).ctx.forceLanguage
      = optOfString defLang
    ∧ (inferenceHandler m t defLang defPrompt conv env req ctx).ctx.prompt
      = optOfString defPrompt := by
  have hcv : ¬ (conv = true ∧ env.convertOk = false) := by
    rcases hconv with h | h <;> simp [h]
  have hshape : inferenceHandler m t defLang defPrompt conv env req ctx
      = { response := ⟨500, Body.errJson "failed to process audio"⟩,
          ctx := restore_defaults m defLang defPrompt
            (qwen_transcribe_audio m t
              (ctxAfterOverrides m defLang defPrompt req ctx) samples).2,
          samplesFreed := true } := by
    unfold inferenceHandler
    rw [if_neg (by simp [hlang]), if_neg (by simp [hfile]), if_neg hcv]
    have hctx2 : qwen_set_prompt
        (qwen_set_force_language m ctx
          (optOfString (req.language.getD defLang))).2
        (optOfString (req.prompt.getD defPrompt))
      = ctxAfterOverrides m defLang defPrompt req ctx := rfl
    rw [hctx2, hwav]
    simp only [htr]
  rw [hshape]
  exact ⟨rfl, rfl, rfl,
    (restore_defaults_fields m defLang defPrompt _ hdef).1,
    (restore_defaults_fields m defLang defPrompt _ hdef).2⟩

/-- C6 witness: forcing "French" on the concrete engine makes decoding fail at
runtime, and the handler answers 500 with the error body, the buffer freed and
the defaults restored. -/
theorem qwen_c6_witness :
    (inferenceHandler mTest tTest "" "" false ⟨true, some [0, 0, 0]⟩
        ⟨some "French", none, none, true⟩ ctxTest).response.status = 500
    ∧ (inferenceHandler mTest tTest "" "" false ⟨true, some [0, 0, 0]⟩
        ⟨some "French", none, none, true⟩ ctxTest).response.body
      = Body.errJson "failed to process audio"
    ∧ (inferenceHandler mTest tTest "" "" false ⟨true, some [0, 0, 0]⟩
        ⟨some "French", none, none, true⟩ ctxTest).ctx.forceLanguage
      = optOfString "" := by
  have h := qwen_c6 mTest tTest "" "" false ⟨true, some [0, 0, 0]⟩
    ⟨some "French", none, none, true⟩ ctxTest [0, 0, 0]
    (Or.inl rfl) (by decide) rfl (Or.inl rfl) rfl (by decide)
  exact ⟨h.1, h.2.1, h.2.2.2.1⟩

/-- C7: the per-call timing lines depend only on the process-wide verbosity
flag: in the bench trace the flag is 0 at every inference (set after the model
load, before the warm-up and all measured runs), so no line is emitted; in the
server trace the flag is set to 1 before the model load and is 1 at every
request, so the timing summary is emitted. -/
theorem qwen_c7 (init : ℤ) (nRuns nReq i j : ℕ)
    (hi : (benchTrace nRuns)[i]? = some ProcEvent.inference)
    (hj : (serverTrace nReq)[j]? = some ProcEvent.inference) :
    (verboseAfter init ((benchTrace nRuns).take i) = 0
      ∧ timingLineEmitted (verboseAfter init ((benchTrace nRuns).take i))
          = false)
    ∧ ((serverTrace nReq)[0]? = some (ProcEvent.setVerbose 1)
      ∧ (serverTrace nReq)[1]? = some ProcEvent.loadModel)
    ∧ (verboseAfter init ((serverTrace nReq).take j) = 1
      ∧ timingLineEmitted (verboseAfter init ((serverTrace nReq).take j))
          = true) := by
  have hb : verboseAfter init ((benchTrace nRuns).take i) = 0 := by
    match i, hi with
    | 0, hi => simp [benchTrace] at hi
    | 1, hi => simp [benchTrace] at hi
    | 2, _ => rfl
    | (k + 3), _ =>
        unfold benchTrace verboseAfter
        rw [List.take_succ_cons, List.take_succ_cons, List.take_succ_cons]
        rw [List.foldl_cons, List.foldl_cons, List.foldl_cons]
        exact foldl_applyEvent_take_replicate 0 k nRuns
  have hs : verboseAfter init ((serverTrace nReq).take j) = 1 := by
    match j, hj with
    | 0, hj => simp [serverTrace] at hj
    | 1, hj => simp [serverTrace] at hj
    | (k + 2), _ =>
        unfold serverTrace verboseAfter
        rw [List.take_succ_cons, List.take_succ_cons]
        rw [List.foldl_cons, List.foldl_cons]
        exact foldl_applyEvent_take_replicate 1 k nReq
  refine ⟨⟨hb, ?_⟩, ⟨by simp [serverTrace], by simp [serverTrace]⟩, hs, ?_⟩
  · rw [hb]; rfl
  · rw [hs]; rfl

/-- C7 witness: with an arbitrary initial flag value 5, one measured bench run
and one served request, the flag is 0 at the bench run and 1 at the server
request. -/
theorem qwen_c7_witness :
    verboseAfter 5 ((benchTrace 1).take 2) = 0
    ∧ verboseAfter 5 ((serverTrace 1).take 2) = 1 := by
  have h := qwen_c7 5 1 1 2 2 (by decide) (by decide)
  exact ⟨h.1.1, h.2.2.1⟩

/-- C9: per-request overrides never leak: on every exit path of the /inference
handler the context's force-language and prompt equal the server-level
defaults (empty string meaning null), ready for the next request. -/
theorem qwen_c9 (m : Model) (t : Timing) (defLang defPrompt : String)
    (conv : Bool) (env : AudioEnv) (req : Request) (ctx : Ctx)
    (hdef : defLang = "" ∨ defLang ∈ m.supported) :
    (inferenceHandler m t defLang defPrompt conv env req ctx).ctx.forceLanguage
      = optOfString defLang
    ∧ (inferenceHandler m t defLang defPrompt conv env req ctx).ctx.prompt
      = optOfString defPrompt := by
  obtain ⟨c, hc⟩ := handler_ctx_restored m t defLang defPrompt conv env req ctx
  rw [hc]
  exact restore_defaults_fields m defLang defPrompt c hdef

/-- C9 witness: a request overriding both language and prompt, rejected for an
unsupported language, still leaves the context at the server defaults. -/
theorem qwen_c9_witness :
    (inferenceHandler mTest tTest "English" "sys" false ⟨true, none⟩
        ⟨some "Klingon", some "boost", none, true⟩ ctxTest).ctx.forceLanguage
      = optOfString "English"
    ∧ (inferenceHandler mTest tTest "English" "sys" false ⟨true, none⟩
        ⟨some "Klingon", some "boost", none, true⟩ ctxTest).ctx.prompt
      = optOfString "sys" :=
  qwen_c9 mTest tTest "English" "sys" false ⟨true, none⟩
    ⟨some "Klingon", some "boost", none, true⟩ ctxTest (Or.inr (by decide))

/-- C10: a failed hot-swap terminates the server: when a /load request names a
directory for which qwen_load returns null, the old context has already been
freed and the process exits with status 1; the READY state with a new context
is reached only by a successful load. -/
theorem qwen_c10 (m : Model) (defLang defPrompt : String)
    (modelField : Option String) (loadResult : Option Ctx) :
    (modelField ≠ none → loadResult = none →
      loadHandler m defLang defPrompt modelField loadResult
        = ⟨LoadOutcome.exited 1, true, false⟩)
    ∧ (∀ c, (loadHandler m defLang defPrompt modelField loadResult).outcome
          = LoadOutcome.ready c →
        (∃ c0, loadResult = some c0)
        ∧ (loadHandler m defLang defPrompt modelField loadResult).oldCtxFreed
            = true
        ∧ (loadHandler m defLang defPrompt modelField loadResult).stateReady
            = true) := by
  constructor
  · intro hmf hlr
    cases modelField with
    | none => exact absurd rfl hmf
    | some d => subst hlr; rfl
  · intro c hc
    cases modelField with
    | none => simp [loadHandler] at hc
    | some d =>
        cases loadResult with
        | none => simp [loadHandler] at hc
        | some c0 => exact ⟨⟨c0, rfl⟩, rfl, rfl⟩

/-- C10 witness: a /load naming an unloadable directory exits with status 1
after freeing the old context. -/
theorem qwen_c10_witness :
    loadHandler mTest "" "" (some "/models/broken") none
      = ⟨LoadOutcome.exited 1, true, false⟩ :=
  (qwen_c10 mTest "" "" (some "/models/broken") none).1 (by simp) rfl

end QwenASR
